import Mathlib

/-
Shallow embedding of `graphkit/base.py` (pygraphkit/graphkit):
the `jetsam` diagnostic salvager, the `Operation` class
(`__eq__`, `__hash__`, `_compute`, `__getstate__`, `__setstate__`)
and the `NetworkOperation` configuration setters.

Python dicts are modelled as insertion-ordered association lists with
unique keys; Python values by a small closed universe `PyVal`; exceptions
by explicit outcome values.
-/

namespace Graphkit

/-- Python values flowing through named-value stores, params and salvaged
dictionaries: a closed universe sufficient for the verified claims. -/
inductive PyVal where
  | none
  | bool (b : Bool)
  | int (n : Int)
  | str (s : String)
deriving DecidableEq, Repr

/-- Membership test for a key in a Python dict modelled as an association
list (`k in d`). -/
def hasKey (d : List (String × PyVal)) (k : String) : Bool :=
  d.any (fun p => p.1 == k)

/-- Lookup of a key in a Python dict modelled as an association list:
`d.get(k)` returns `some` of the stored value, or `none` when absent. -/
def dictGet (d : List (String × PyVal)) (k : String) : Option PyVal :=
  match d.find? (fun p => p.1 == k) with
  | some p => some p.2
  | Option.none => Option.none

/-- Python `d[k] = v`: replace in place when the key exists (keeping its
position, per dict insertion-order semantics), else append. -/
def dictInsert (d : List (String × PyVal)) (k : String) (v : PyVal) : List (String × PyVal) :=
  if hasKey d k then d.map (fun p => if p.1 == k then (k, v) else p) else d ++ [(k, v)]

/-- Python `dict(pairs)`: inserts the pairs left to right, so a duplicated
key keeps its first position but its last value. -/
def dictOf (ps : List (String × PyVal)) : List (String × PyVal) :=
  ps.foldl (fun d p => dictInsert d p.1 p.2) []

/-- Python `d.setdefault(k, v)`: insert only when the key is absent. -/
def setdefault (d : List (String × PyVal)) (k : String) (v : PyVal) : List (String × PyVal) :=
  if hasKey d k then d else d ++ [(k, v)]

/-- The `Operation` data model of `base.py`: `__init__` stores
`kwargs.get("name")`, `kwargs.get("needs")`, `kwargs.get("provides")`
(each `None` when absent, hence `Option`) and `kwargs.get("params", {})`. -/
structure Operation where
  name : Option String
  needs : Option (List String)
  provides : Option (List String)
  params : List (String × PyVal)
deriving DecidableEq, Repr

/-- Embedding of `Operation.__eq__`: the other operand enters only through
`getattr(other, "name", None)`, so it is represented by that optional
name; the code returns `bool(self.name is not None and self.name == ...)`. -/
def Operation.pyEq (a : Operation) (otherName : Option String) : Bool :=
  a.name.isSome && a.name == otherName

/-- Deterministic stand-in for CPython's (opaque, per-process-deterministic)
string hash; only determinism is relied upon. -/
def strHashModel (s : String) : Nat :=
  s.foldl (fun h c => (h * 1000003 + c.toNat) % (2 ^ 64)) 5381

/-- Embedding of `Operation.__hash__`: `hash(self.name)`; `hash(None)` is a
fixed constant within a process. -/
def Operation.pyHash (op : Operation) : Nat :=
  match op.name with
  | some s => strHashModel s
  | Option.none => 271828182845905

/-- The list comprehension `[named_inputs[d] for d in self.needs]` of
`Operation._compute`: positional extraction in `needs` order, failing
(KeyError) when any name is absent from the store. -/
def getArgs (named_inputs : List (String × PyVal)) : List String → Option (List PyVal)
  | [] => some []
  | k :: ks =>
    match dictGet named_inputs k with
    | some v => (getArgs named_inputs ks).map (fun vs => v :: vs)
    | Option.none => Option.none

/-- Embedding of `Operation._compute`.  The operation's `compute` method is
supplied as the pure function `computeF`.  On the success path: extract
`args` by `needs` order, run `compute`, `zip` with `provides`, and filter
only when `outputs` is truthy (a non-empty list); return `dict(results)`.
Any exception (a missing need, or `needs`/`provides` being `None` so the
iteration raises) is salvaged by `jetsam` and re-raised: `Except.error`. -/
def Operation._compute (op : Operation) (computeF : List PyVal → List PyVal)
    (named_inputs : List (String × PyVal)) (outputs : Option (List String)) :
    Except Unit (List (String × PyVal)) :=
  match op.provides, op.needs with
  | some provides, some needs =>
    match getArgs named_inputs needs with
    | some args =>
      let results := computeF args
      let zipped := provides.zip results
      let kept :=
        match outputs with
        | some outs => if outs.isEmpty then zipped else zipped.filter (fun x => outs.contains x.1)
        | Option.none => zipped
      Except.ok (dictOf kept)
    | Option.none => Except.error ()
  | _, _ => Except.error ()

/-- The state dict built by `Operation.__getstate__`: exactly the keys
`params`, `needs`, `provides`, `name` (in that insertion order). -/
structure PickleState where
  params : List (String × PyVal)
  needs : Option (List String)
  provides : Option (List String)
  name : Option String
deriving DecidableEq, Repr

/-- Embedding of `Operation.__getstate__`: persists only the four
attributes `params`, `needs`, `provides`, `name`. -/
def Operation.__getstate__ (op : Operation) : PickleState :=
  { params := op.params, needs := op.needs, provides := op.provides, name := op.name }

/-- Observable events of the restore procedure `__setstate__`: one
attribute assignment per state key, and calls of the `_after_init` hook. -/
inductive RestoreEvent where
  | setAttr (k : String)
  | afterInitCall
deriving DecidableEq, Repr

/-- Embedding of `Operation.__setstate__`: sets each attribute from the
state dict (iterated in its insertion order), then calls `_after_init()`
once; returns the restored operation together with the event trace. -/
def Operation.__setstate__ (state : PickleState) : Operation × List RestoreEvent :=
  ({ name := state.name, needs := state.needs, provides := state.provides,
     params := state.params },
   [RestoreEvent.setAttr "params", RestoreEvent.setAttr "needs",
    RestoreEvent.setAttr "provides", RestoreEvent.setAttr "name",
    RestoreEvent.afterInitCall])

/-- A source in `salvage_mappings`: the code accepts a string (a key of the
`locs` snapshot), a callable (invoked on the snapshot, and allowed to
raise), or — rejected by the assertions — anything else. -/
inductive Src where
  | name (s : String)
  | accessor (f : List (String × PyVal) → Except Unit PyVal)
  | bad (v : PyVal)

/-- The assertion `isinstance(v, str) or callable(v)` on a mapping source. -/
def srcOk : Src → Bool
  | Src.name _ => true
  | Src.accessor _ => true
  | Src.bad _ => false

/-- An entry of `salvage_vars`: the assertions require each to be a string. -/
inductive VarArg where
  | str (s : String)
  | nonstr (v : PyVal)

/-- The assertion `isinstance(i, str)` on a `salvage_vars` entry. -/
def varIsStr : VarArg → Bool
  | VarArg.str _ => true
  | VarArg.nonstr _ => false

/-- Arguments of a `jetsam` call.  The first two booleans embed the dynamic
type tests `isinstance(ex, Exception)` and `isinstance(locs, dict)`;
`locs` is the snapshot's content (meaningful when it is a dict);
`salvage_mappings` is the keyword mapping with the `annotation` kwarg
already popped off (the code pops it before anything else). -/
structure JetsamArgs where
  exIsException : Bool
  locsIsDict : Bool
  locs : List (String × PyVal)
  salvage_vars : List VarArg
  salvage_mappings : List (String × Src)

/-- The value an exception holds in its jetsam attribute slot: a dict, or
some non-dict value (which `jetsam` replaces by a fresh dict). -/
inductive AttrVal where
  | dict (d : List (String × PyVal))
  | nondict (v : PyVal)
deriving DecidableEq, Repr

/-- Which exception leaves a `jetsam` call: an assertion failure from the
precondition checks, the original error (bare `raise`), or — after
`raise ex2` in the outer `except` — the bookkeeping error itself. -/
inductive JetsamOutcome where
  | assertFail
  | raisedOriginal
  | raisedSecondary
deriving DecidableEq, Repr

/-- Result of a `jetsam` call: the propagated exception and the final value
of the error object's jetsam attribute slot. -/
structure JetsamResult where
  outcome : JetsamOutcome
  attr : Option AttrVal
deriving DecidableEq, Repr

/-- The combined precondition assertions of `jetsam` (lines 84-94 of
`base.py`), checked before any mutation of the error object. -/
def jetsamPrecondOk (a : JetsamArgs) : Bool :=
  a.exIsException && a.locsIsDict && a.salvage_vars.all varIsStr
    && !a.salvage_mappings.isEmpty && a.salvage_mappings.all (fun p => srcOk p.2)

/-- The merge loop `for var in salvage_vars: if var not in salvage_mappings:
salvage_mappings[var] = var`.  It runs only after the assertions, so the
`nonstr` branch is unreachable in any verified execution. -/
def mergeVars (mappings : List (String × Src)) (vars : List VarArg) : List (String × Src) :=
  vars.foldl
    (fun m v =>
      match v with
      | VarArg.str s => if m.any (fun p => p.1 == s) then m else m ++ [(s, Src.name s)]
      | VarArg.nonstr _ => m)
    mappings

/-- Resolution of one salvage item: `src(locs) if callable(src) else
locs.get(src)` — note `locs.get` defaults to Python `None` for a missing
name. -/
def resolveSrc (src : Src) (locs : List (String × PyVal)) : Except Unit PyVal :=
  match src with
  | Src.name s => Except.ok ((dictGet locs s).getD PyVal.none)
  | Src.accessor f => f locs
  | Src.bad _ => Except.error ()

/-- One iteration of the salvage loop: resolve the source and
`annotations.setdefault(dst_key, value)`; a raising resolution is caught,
logged and suppressed, leaving the dict unchanged. -/
def jetsamStep (locs : List (String × PyVal)) (d : List (String × PyVal))
    (item : String × Src) : List (String × PyVal) :=
  match resolveSrc item.2 locs with
  | Except.ok v => setdefault d item.1 v
  | Except.error _ => d

/-- Embedding of `jetsam(ex, locs, *salvage_vars, **salvage_mappings)`.
`attr0` is the prior value of the error's jetsam attribute slot
(`getattr(ex, annotation, None)`); `setattrFails` states whether
`setattr(ex, annotation, {})` — the only outer-bookkeeping step that can
raise here — would raise on this error object.  Mirrors the code order:
assertions, merge of `salvage_vars`, locate-or-create the annotations
dict (a failure there is caught by the outer `except` which logs and does
`raise ex2`), the per-item salvage loop with suppressed item failures,
and finally the bare `raise` of the original error. -/
def jetsam (a : JetsamArgs) (attr0 : Option AttrVal) (setattrFails : Bool) : JetsamResult :=
  if jetsamPrecondOk a = true then
    let mappings := mergeVars a.salvage_mappings a.salvage_vars
    match attr0 with
    | some (AttrVal.dict d0) =>
      { outcome := JetsamOutcome.raisedOriginal,
        attr := some (AttrVal.dict (mappings.foldl (jetsamStep a.locs) d0)) }
    | _ =>
      if setattrFails = true then
        { outcome := JetsamOutcome.raisedSecondary, attr := attr0 }
      else
        { outcome := JetsamOutcome.raisedOriginal,
          attr := some (AttrVal.dict (mappings.foldl (jetsamStep a.locs) [])) }
  else
    { outcome := JetsamOutcome.assertFail, attr := attr0 }

/-- The argument handed to `NetworkOperation.set_overwrites_collector`:
`None`, a mutable mapping, or any other value. -/
inductive CollectorArg where
  | pynone
  | mapping (d : List (String × PyVal))
  | other (v : PyVal)
deriving DecidableEq, Repr

/-- The `ValueError`s the `NetworkOperation` setters raise, carrying the
data interpolated into their messages: the invalid value together with
the allowed choices, or the non-mapping collector. -/
inductive ConfigError where
  | invalidMethod (method : PyVal) (choices : List String)
  | collectorNotMutableMapping (collector : CollectorArg)
deriving DecidableEq, Repr

/-- The `NetworkOperation` state the configuration setters touch; the
wrapped network is an opaque parameter `Net`.  `__init__` defaults the
method to `"sequential"` and the collector to `None`. -/
structure NetworkOperation (Net : Type) where
  name : Option String
  net : Net
  _execution_method : String
  _overwrites_collector : Option (List (String × PyVal))
deriving DecidableEq, Repr

/-- Embedding of `NetworkOperation.set_execution_method`: the argument must
be in `["parallel", "sequential"]` (a non-string is never `in` a list of
strings), otherwise a `ValueError` naming the value and the choices is
raised and the stored state is left untouched. -/
def NetworkOperation.set_execution_method {Net : Type} (n : NetworkOperation Net)
    (method : PyVal) : NetworkOperation Net × Option ConfigError :=
  let choices := ["parallel", "sequential"]
  match method with
  | PyVal.str s =>
    if choices.contains s then
      ({ n with _execution_method := s }, Option.none)
    else
      (n, some (ConfigError.invalidMethod method choices))
  | _ => (n, some (ConfigError.invalidMethod method choices))

/-- Embedding of `NetworkOperation.set_overwrites_collector`: anything that
is neither `None` nor a `MutableMapping` raises a `ValueError` before the
assignment, leaving the stored collector untouched. -/
def NetworkOperation.set_overwrites_collector {Net : Type} (n : NetworkOperation Net)
    (collector : CollectorArg) : NetworkOperation Net × Option ConfigError :=
  match collector with
  | CollectorArg.pynone => ({ n with _overwrites_collector := Option.none }, Option.none)
  | CollectorArg.mapping d => ({ n with _overwrites_collector := some d }, Option.none)
  | CollectorArg.other _ =>
    (n, some (ConfigError.collectorNotMutableMapping collector))

/-! Helper lemmas about the dict operations and the salvage loop. -/

theorem find?_append_of_some {l₁ l₂ : List (String × PyVal)} {p : String × PyVal → Bool}
    {x : String × PyVal} (h : l₁.find? p = some x) : (l₁ ++ l₂).find? p = some x := by
  rw [List.find?_append, h]
  rfl

theorem hasKey_setdefault_self (d : List (String × PyVal)) (k : String) (v : PyVal) :
    hasKey (setdefault d k v) k = true := by
  unfold setdefault
  split
  case isTrue h => exact h
  case isFalse h => simp [hasKey, List.any_append]

theorem hasKey_setdefault_mono (d : List (String × PyVal)) (k' : String) (v' : PyVal)
    (k : String) (h : hasKey d k = true) : hasKey (setdefault d k' v') k = true := by
  unfold setdefault
  split
  · exact h
  · unfold hasKey at h ⊢
    simp only [List.any_append, Bool.or_eq_true]
    exact Or.inl h

theorem hasKey_jetsamStep_mono (locs : List (String × PyVal)) (d : List (String × PyVal))
    (item : String × Src) (k : String) (h : hasKey d k = true) :
    hasKey (jetsamStep locs d item) k = true := by
  unfold jetsamStep
  cases hres : resolveSrc item.2 locs
  case ok v => exact hasKey_setdefault_mono d item.1 v k h
  case error e => exact h

theorem hasKey_foldl_mono (locs : List (String × PyVal)) (l : List (String × Src))
    (d : List (String × PyVal)) (k : String) (h : hasKey d k = true) :
    hasKey (l.foldl (jetsamStep locs) d) k = true := by
  induction l generalizing d with
  | nil => exact h
  | cons hd tl ih => exact ih _ (hasKey_jetsamStep_mono locs d hd k h)

theorem hasKey_foldl_of_mem (locs : List (String × PyVal)) (k : String) (src : Src)
    (v : PyVal) (hres : resolveSrc src locs = Except.ok v) :
    ∀ (l : List (String × Src)) (d : List (String × PyVal)),
      (k, src) ∈ l → hasKey (l.foldl (jetsamStep locs) d) k = true := by
  intro l
  induction l with
  | nil => intro d hmem; cases hmem
  | cons hd tl ih =>
    intro d hmem
    rcases List.mem_cons.mp hmem with h | h
    · rw [List.foldl_cons]
      apply hasKey_foldl_mono
      have e : jetsamStep locs d hd = setdefault d k v := by
        rw [← h]
        unfold jetsamStep
        simp only [hres]
      rw [e]
      exact hasKey_setdefault_self d k v
    · exact ih (jetsamStep locs d hd) h

theorem dictGet_setdefault_preserve (d : List (String × PyVal)) (k : String) (v : PyVal)
    (k' : String) (v' : PyVal) (h : dictGet d k = some v) :
    dictGet (setdefault d k' v') k = some v := by
  unfold setdefault
  split
  · exact h
  · unfold dictGet at h ⊢
    cases hf : d.find? (fun p => p.1 == k) with
    | none => rw [hf] at h; cases h
    | some p =>
      rw [find?_append_of_some hf]
      rw [hf] at h
      exact h

theorem dictGet_jetsamStep_preserve (locs : List (String × PyVal))
    (d : List (String × PyVal)) (item : String × Src) (k : String) (v : PyVal)
    (h : dictGet d k = some v) : dictGet (jetsamStep locs d item) k = some v := by
  unfold jetsamStep
  cases hres : resolveSrc item.2 locs
  case ok v' => exact dictGet_setdefault_preserve d k v item.1 v' h
  case error e => exact h

theorem dictGet_foldl_preserve (locs : List (String × PyVal)) (l : List (String × Src))
    (d : List (String × PyVal)) (k : String) (v : PyVal) (h : dictGet d k = some v) :
    dictGet (l.foldl (jetsamStep locs) d) k = some v := by
  induction l generalizing d with
  | nil => exact h
  | cons hd tl ih => exact ih _ (dictGet_jetsamStep_preserve locs d hd k v h)

/-! Concrete fixtures used by the witnesses. -/

/-- Example operation of the invocation-mapping law: needs x and y,
provides sum and diff. -/
def opXY : Operation :=
  { name := some "op", needs := some ["x", "y"], provides := some ["sum", "diff"],
    params := [] }

/-- The compute function of the invocation-mapping law:
compute([x, y]) = [x + y, x - y]. -/
def sumDiff (l : List PyVal) : List PyVal :=
  match l with
  | [PyVal.int a, PyVal.int b] => [PyVal.int (a + b), PyVal.int (a - b)]
  | _ => []

/-- The named-value store of the invocation-mapping law. -/
def store0 : List (String × PyVal) := [("x", PyVal.int 5), ("y", PyVal.int 3)]

/-- Named operation fixture (name "op1", needs ["a"], provides ["b"],
params {k: 1}). -/
def opA : Operation :=
  { name := some "op1", needs := some ["a"], provides := some ["b"],
    params := [("k", PyVal.int 1)] }

/-- Operation sharing opA's name but nothing else. -/
def opB : Operation :=
  { name := some "op1", needs := some ["c", "d"], provides := some ["e"],
    params := [] }

/-- Operation with no name. -/
def opN : Operation :=
  { name := Option.none, needs := some ["a"], provides := some ["b"],
    params := [("k", PyVal.int 1)] }

/-- C1: for every operation and store containing all names in `needs`,
`_compute` extracts arguments positionally in `needs` order (the
hypothesis `getArgs store ns = some args`), pairs `compute`'s results
with `provides` in order, and — when a non-empty `outputs` subset is
requested — restricts the returned mapping to the requested keys;
with no outputs filter it returns the full pairing as a dict. -/
theorem C1_invocation_mapping (op : Operation) (computeF : List PyVal → List PyVal)
    (store : List (String × PyVal)) (ns ps : List String) (args : List PyVal)
    (hn : op.needs = some ns) (hp : op.provides = some ps)
    (ha : getArgs store ns = some args) :
    op._compute computeF store Option.none
      = Except.ok (dictOf (ps.zip (computeF args))) ∧
    ∀ outs : List String, outs ≠ [] →
      op._compute computeF store (some outs)
        = Except.ok (dictOf ((ps.zip (computeF args)).filter (fun x => outs.contains x.1))) := by
  constructor
  · unfold Operation._compute
    rw [hn, hp]
    simp only [ha]
  · intro outs houts
    unfold Operation._compute
    rw [hn, hp]
    simp only [ha]
    have he : outs.isEmpty = false := by
      cases outs
      · exact absurd rfl houts
      · rfl
    simp only [he]
    rfl

/-- Witness for C1 at the spec's concrete input: needs ["x","y"],
provides ["sum","diff"], compute([x,y]) = [x+y, x-y], store {x:5, y:3}:
no filter gives {"sum": 8, "diff": 2}; outputs=["diff"] gives exactly
{"diff": 2}. -/
theorem C1_witness :
    opXY._compute sumDiff store0 Option.none
      = Except.ok [("sum", PyVal.int 8), ("diff", PyVal.int 2)] ∧
    opXY._compute sumDiff store0 (some ["diff"])
      = Except.ok [("diff", PyVal.int 2)] := by
  have h := C1_invocation_mapping opXY sumDiff store0 ["x", "y"] ["sum", "diff"]
    [PyVal.int 5, PyVal.int 3] rfl rfl rfl
  exact ⟨h.1.trans (by rfl), (h.2 ["diff"] (by simp)).trans (by rfl)⟩

/-- C9: requesting `outputs = []` (an empty subset) does not filter at all:
because the code guards the filter with the truthiness test
`if outputs:`, an empty list behaves exactly like `None` and the full
mapping of every provided output is returned. -/
theorem C9_empty_outputs_unfiltered (op : Operation) (computeF : List PyVal → List PyVal)
    (store : List (String × PyVal)) (ns ps : List String) (args : List PyVal)
    (hn : op.needs = some ns) (hp : op.provides = some ps)
    (ha : getArgs store ns = some args) :
    op._compute computeF store (some [])
      = Except.ok (dictOf (ps.zip (computeF args))) ∧
    op._compute computeF store (some []) = op._compute computeF store Option.none := by
  constructor
  · unfold Operation._compute
    rw [hn, hp]
    simp only [ha]
    rfl
  · unfold Operation._compute
    rw [hn, hp]
    simp only [ha]
    rfl

/-- Witness for C9 at the concrete sum/diff operation: outputs=[] returns
the full mapping, identical to the unfiltered invocation. -/
theorem C9_witness :
    opXY._compute sumDiff store0 (some [])
      = Except.ok [("sum", PyVal.int 8), ("diff", PyVal.int 2)] ∧
    opXY._compute sumDiff store0 (some []) = opXY._compute sumDiff store0 Option.none := by
  have h := C9_empty_outputs_unfiltered opXY sumDiff store0 ["x", "y"] ["sum", "diff"]
    [PyVal.int 5, PyVal.int 3] rfl rfl rfl
  exact ⟨h.1.trans (by rfl), h.2⟩

/-- C2: `A == B` iff A's name is non-None and equals B's name; two
operations sharing a non-None name are equal with equal hashes
regardless of needs/provides/params; an operation whose name is None is
never equal to any operation, including itself. -/
theorem C2_name_identity (a b : Operation) :
    (Operation.pyEq a b.name = true ↔ ∃ s, a.name = some s ∧ b.name = some s) ∧
    (∀ s, a.name = some s → b.name = some s →
      Operation.pyEq a b.name = true ∧ a.pyHash = b.pyHash) ∧
    (a.name = Option.none →
      Operation.pyEq a b.name = false ∧ Operation.pyEq a a.name = false) := by
  refine ⟨?_, ?_, ?_⟩
  · cases ha : a.name with
    | none => simp [Operation.pyEq, ha]
    | some s =>
      cases hb : b.name with
      | none => simp [Operation.pyEq, ha]
      | some t =>
        simp only [Operation.pyEq, ha, Option.isSome_some, Bool.true_and, beq_iff_eq,
          Option.some.injEq]
        constructor
        · intro h
          exact ⟨s, rfl, h.symm⟩
        · rintro ⟨u, hu, ht⟩
          rw [ht, hu]
  · intro s hs hbs
    rw [hbs]
    constructor
    · simp [Operation.pyEq, hs]
    · unfold Operation.pyHash
      rw [hs, hbs]
  · intro ha
    constructor
    · simp [Operation.pyEq, ha]
    · simp [Operation.pyEq, ha]

/-- Witness for C2: opA and opB share the name "op1" with different
needs/provides/params, so they are equal with equal hashes; the unnamed
opN is not even equal to itself. -/
theorem C2_witness :
    Operation.pyEq opA opB.name = true ∧ opA.pyHash = opB.pyHash ∧
    Operation.pyEq opN opN.name = false := by
  have h1 := (C2_name_identity opA opB).2.1 "op1" rfl rfl
  have h2 := (C2_name_identity opN opN).2.2 rfl
  exact ⟨h1.1, h1.2, h2.2⟩

/-- C10: equality goes through `getattr(other, "name", None)` only, so a
named operation compares equal to any object whose name attribute
equals its own name, and an object without a name attribute (seen as
name None) is unequal to every operation. -/
theorem C10_getattr_equality (a : Operation) :
    (∀ s, a.name = some s → Operation.pyEq a (some s) = true) ∧
    Operation.pyEq a Option.none = false := by
  constructor
  · intro s hs
    simp [Operation.pyEq, hs]
  · cases ha : a.name <;> simp [Operation.pyEq, ha]

/-- Witness for C10: the named opA equals a bare object carrying the same
name attribute, and is unequal to an object without one. -/
theorem C10_witness :
    Operation.pyEq opA (some "op1") = true ∧ Operation.pyEq opA Option.none = false := by
  have h := C10_getattr_equality opA
  exact ⟨h.1 "op1" rfl, h.2⟩

/-- Jetsam fixture of C3's witness: one source that resolves and one
accessor that raises. -/
def jetsamArgsC3 : JetsamArgs :=
  { exIsException := true, locsIsDict := true, locs := [("x", PyVal.int 1)],
    salvage_vars := [],
    salvage_mappings := [("good", Src.name "x"),
                         ("bad1", Src.accessor (fun _ => Except.error ()))] }

/-- C3 counterexample: when the annotation bookkeeping itself raises
(here, `setattr(ex, annotation, {})` fails on the error object), the
code's outer `except` does `raise ex2`, so the bookkeeping error — not
the original error — is what propagates to the caller, refuting the
claim that the original exception is always what the caller observes. -/
theorem C3_counterexample :
    (jetsam { exIsException := true, locsIsDict := true, locs := [],
              salvage_vars := [], salvage_mappings := [("k", Src.name "n")] }
        Option.none true).outcome = JetsamOutcome.raisedSecondary ∧
    JetsamOutcome.raisedSecondary ≠ JetsamOutcome.raisedOriginal := by
  exact ⟨rfl, by decide⟩

/-- C3 (amended): per-item salvage failures never mask the original error:
whenever the preconditions hold and the bookkeeping step succeeds
(the annotation slot already holds a dict, or `setattr` does not raise),
the original exception propagates and the final annotation dict
contains every destination key whose salvage resolution succeeded —
failing accessors are logged and skipped.  Only a failure of the outer
bookkeeping is re-raised in place of the original error. -/
theorem C3_original_error_survives_item_failures (a : JetsamArgs) (attr0 : Option AttrVal)
    (sf : Bool) (hpre : jetsamPrecondOk a = true)
    (hbk : (∃ d0, attr0 = some (AttrVal.dict d0)) ∨ sf = false) :
    (jetsam a attr0 sf).outcome = JetsamOutcome.raisedOriginal ∧
    ∃ D, (jetsam a attr0 sf).attr = some (AttrVal.dict D) ∧
      ∀ k src v, (k, src) ∈ mergeVars a.salvage_mappings a.salvage_vars →
        resolveSrc src a.locs = Except.ok v → hasKey D k = true := by
  have hmain : ∀ d0 : List (String × PyVal), ∀ (k : String) (src : Src) (v : PyVal),
      (k, src) ∈ mergeVars a.salvage_mappings a.salvage_vars →
      resolveSrc src a.locs = Except.ok v →
      hasKey ((mergeVars a.salvage_mappings a.salvage_vars).foldl (jetsamStep a.locs) d0) k
        = true := by
    intro d0 k src v hmem hres
    exact hasKey_foldl_of_mem a.locs k src v hres _ d0 hmem
  unfold jetsam
  simp only [hpre, if_true]
  rcases attr0 with _ | av
  · rcases hbk with ⟨d0, hd⟩ | hsf
    · cases hd
    · rw [hsf]
      exact ⟨rfl, _, rfl, hmain []⟩
  · cases av with
    | dict d0 => exact ⟨rfl, _, rfl, hmain d0⟩
    | nondict v0 =>
      rcases hbk with ⟨d0, hd⟩ | hsf
      · cases hd
      · rw [hsf]
        exact ⟨rfl, _, rfl, hmain []⟩

/-- Witness for C3: with one resolvable source and one raising accessor,
the original error propagates and the key salvaged successfully is in
the annotation. -/
theorem C3_witness :
    (jetsam jetsamArgsC3 Option.none false).outcome = JetsamOutcome.raisedOriginal ∧
    ∃ D, (jetsam jetsamArgsC3 Option.none false).attr = some (AttrVal.dict D) ∧
      hasKey D "good" = true := by
  have h := C3_original_error_survives_item_failures jetsamArgsC3 Option.none false rfl
    (Or.inr rfl)
  obtain ⟨D, hD, hall⟩ := h.2
  refine ⟨h.1, D, hD, ?_⟩
  exact hall "good" (Src.name "x") (PyVal.int 1) (List.mem_cons_self _ _) rfl

/-- C4: a destination key already present in the error's annotation dict is
left unchanged by a later salvage of the same key — `setdefault` inserts
only missing keys, so the innermost salvage wins. -/
theorem C4_innermost_wins (a : JetsamArgs) (d0 : List (String × PyVal)) (sf : Bool)
    (k : String) (v : PyVal) (hpre : jetsamPrecondOk a = true)
    (hk : dictGet d0 k = some v) :
    ∃ D, (jetsam a (some (AttrVal.dict d0)) sf).attr = some (AttrVal.dict D) ∧
      dictGet D k = some v := by
  unfold jetsam
  simp only [hpre, if_true]
  exact ⟨_, rfl, dictGet_foldl_preserve a.locs _ d0 k v hk⟩

/-- Witness for C4: key "v" is first salvaged with value 1; an outer
salvage of "v" with value 2 on the same error leaves the annotation's
"v" equal to 1. -/
theorem C4_witness :
    (jetsam { exIsException := true, locsIsDict := true, locs := [("x", PyVal.int 1)],
              salvage_vars := [], salvage_mappings := [("v", Src.name "x")] }
        Option.none false).attr = some (AttrVal.dict [("v", PyVal.int 1)]) ∧
    ∃ D,
      (jetsam { exIsException := true, locsIsDict := true, locs := [("x", PyVal.int 2)],
                salvage_vars := [], salvage_mappings := [("v", Src.name "x")] }
          (some (AttrVal.dict [("v", PyVal.int 1)])) false).attr = some (AttrVal.dict D) ∧
      dictGet D "v" = some (PyVal.int 1) := by
  refine ⟨rfl, ?_⟩
  exact C4_innermost_wins _ [("v", PyVal.int 1)] false "v" (PyVal.int 1) rfl rfl

/-- C5: violating any precondition of the claim — the error not an
exception instance, the snapshot not a dict, a non-string explicit
variable name, a mapping source neither string nor callable, or no
salvage target at all — makes `jetsam` fail with an assertion error
before the error object or its annotation slot is touched, so partial
salvage never happens on bad input. -/
theorem C5_preconditions_fail_fast (a : JetsamArgs) (attr0 : Option AttrVal) (sf : Bool)
    (h : ¬ (a.exIsException = true ∧ a.locsIsDict = true
        ∧ a.salvage_vars.all varIsStr = true
        ∧ a.salvage_mappings.all (fun p => srcOk p.2) = true
        ∧ (a.salvage_vars ≠ [] ∨ a.salvage_mappings ≠ []))) :
    jetsam a attr0 sf = { outcome := JetsamOutcome.assertFail, attr := attr0 } := by
  have hpre : jetsamPrecondOk a = false := by
    cases hx : jetsamPrecondOk a
    · rfl
    · exfalso
      unfold jetsamPrecondOk at hx
      simp only [Bool.and_eq_true] at hx
      obtain ⟨⟨⟨⟨h1, h2⟩, h3⟩, h4⟩, h5⟩ := hx
      apply h
      refine ⟨h1, h2, h3, h5, Or.inr ?_⟩
      simp only [Bool.not_eq_true'] at h4
      simp only [List.isEmpty_eq_false] at h4
      exact h4
  unfold jetsam
  simp [hpre]

/-- Witness for C5: a call whose error argument is not an exception
instance fails the assertions and leaves the annotation slot untouched. -/
theorem C5_witness :
    jetsam { exIsException := false, locsIsDict := true, locs := [],
             salvage_vars := [], salvage_mappings := [("k", Src.name "n")] }
        Option.none false
      = { outcome := JetsamOutcome.assertFail, attr := Option.none } := by
  apply C5_preconditions_fail_fast
  intro hc
  exact absurd hc.1 (by decide)

/-- C8 counterexample: the value recorded for a missing snapshot name is
not a distinguishable sentinel: salvaging source "n" from a snapshot
without "n" yields exactly the same annotation as from a snapshot
mapping "n" to None — both record Python None under the key. -/
theorem C8_counterexample :
    jetsam { exIsException := true, locsIsDict := true, locs := [],
             salvage_vars := [], salvage_mappings := [("k", Src.name "n")] }
        Option.none false
      = jetsam { exIsException := true, locsIsDict := true, locs := [("n", PyVal.none)],
                 salvage_vars := [], salvage_mappings := [("k", Src.name "n")] }
          Option.none false ∧
    (jetsam { exIsException := true, locsIsDict := true, locs := [],
              salvage_vars := [], salvage_mappings := [("k", Src.name "n")] }
        Option.none false).attr
      = some (AttrVal.dict [("k", PyVal.none)]) := by
  exact ⟨rfl, rfl⟩

/-- C8 (amended): a salvage source name absent from the snapshot is
recorded as Python None — the default of `locs.get` — which is the very
value recorded when the snapshot legitimately maps the name to None, so
the two situations are indistinguishable in the annotation. -/
theorem C8_missing_name_records_none (locs locs2 : List (String × PyVal)) (n k : String)
    (h : dictGet locs n = Option.none) (h2 : dictGet locs2 n = some PyVal.none) :
    jetsam { exIsException := true, locsIsDict := true, locs := locs,
             salvage_vars := [], salvage_mappings := [(k, Src.name n)] }
        Option.none false
      = { outcome := JetsamOutcome.raisedOriginal,
          attr := some (AttrVal.dict [(k, PyVal.none)]) } ∧
    jetsam { exIsException := true, locsIsDict := true, locs := locs2,
             salvage_vars := [], salvage_mappings := [(k, Src.name n)] }
        Option.none false
      = jetsam { exIsException := true, locsIsDict := true, locs := locs,
                 salvage_vars := [], salvage_mappings := [(k, Src.name n)] }
          Option.none false := by
  constructor
  · simp [jetsam, jetsamPrecondOk, mergeVars, jetsamStep, resolveSrc, setdefault, hasKey,
      srcOk, h]
  · simp [jetsam, jetsamPrecondOk, mergeVars, jetsamStep, resolveSrc, setdefault, hasKey,
      srcOk, h, h2]

/-- Witness for C8: a concrete snapshot without "n" records None under the
destination key, the same annotation as a snapshot holding "n": None. -/
theorem C8_witness :
    jetsam { exIsException := true, locsIsDict := true, locs := [("m", PyVal.int 7)],
             salvage_vars := [], salvage_mappings := [("k", Src.name "n")] }
        Option.none false
      = { outcome := JetsamOutcome.raisedOriginal,
          attr := some (AttrVal.dict [("k", PyVal.none)]) } ∧
    jetsam { exIsException := true, locsIsDict := true, locs := [("n", PyVal.none)],
             salvage_vars := [], salvage_mappings := [("k", Src.name "n")] }
        Option.none false
      = jetsam { exIsException := true, locsIsDict := true, locs := [("m", PyVal.int 7)],
                 salvage_vars := [], salvage_mappings := [("k", Src.name "n")] }
          Option.none false :=
  C8_missing_name_records_none [("m", PyVal.int 7)] [("n", PyVal.none)] "n" "k" rfl rfl

/-- C6 counterexample: an operation constructed without a name restores
from its pickled state with all four attributes reproduced, yet it is
not equal (by name-based identity) to the original — a None name is
never equal to anything, self included — refuting the equality part of
the claim for every operation. -/
theorem C6_counterexample :
    Operation.pyEq (Operation.__setstate__ opN.__getstate__).1 opN.name = false ∧
    (Operation.__setstate__ opN.__getstate__).1 = opN := by
  exact ⟨rfl, rfl⟩

/-- C6 (amended): serialization persists exactly the four attributes
params, needs, provides, name; restoring reproduces the original
operation with the `_after_init` hook invoked exactly once during the
restore; and the restored operation is equal (by name-based identity)
to the original whenever the name is non-None (an unnamed operation
never compares equal, not even to its own restored copy). -/
theorem C6_pickle_roundtrip (op : Operation) :
    op.__getstate__ = { params := op.params, needs := op.needs, provides := op.provides,
                        name := op.name } ∧
    (Operation.__setstate__ op.__getstate__).1 = op ∧
    ((Operation.__setstate__ op.__getstate__).2.filter
        (fun e => e == RestoreEvent.afterInitCall)).length = 1 ∧
    (∀ s, op.name = some s →
      Operation.pyEq (Operation.__setstate__ op.__getstate__).1 op.name = true) := by
  refine ⟨rfl, rfl, rfl, ?_⟩
  intro s hs
  show Operation.pyEq op op.name = true
  simp [Operation.pyEq, hs]

/-- Witness for C6 at the spec's concrete operation (name "op1",
needs ["a"], provides ["b"], params {k: 1}): the persisted state is the
four attributes, the restore reproduces the operation, runs the hook
once, and the restored copy equals the original. -/
theorem C6_witness :
    opA.__getstate__ = { params := [("k", PyVal.int 1)], needs := some ["a"],
                         provides := some ["b"], name := some "op1" } ∧
    (Operation.__setstate__ opA.__getstate__).1 = opA ∧
    ((Operation.__setstate__ opA.__getstate__).2.filter
        (fun e => e == RestoreEvent.afterInitCall)).length = 1 ∧
    Operation.pyEq (Operation.__setstate__ opA.__getstate__).1 opA.name = true := by
  have h := C6_pickle_roundtrip opA
  exact ⟨h.1, h.2.1, h.2.2.1, h.2.2.2 "op1" rfl⟩

/-- Network-operation fixture for the configuration witnesses. -/
def netOp0 : NetworkOperation Unit :=
  { name := some "graph", net := (), _execution_method := "sequential",
    _overwrites_collector := Option.none }

/-- C7: setting the execution method to any value outside
{"sequential", "parallel"} raises a `ValueError` naming the value and
the allowed choices and leaves the whole stored state unchanged; both
valid strings are stored.  Setting the overwrites collector to anything
that is neither None nor a mutable mapping raises a `ValueError` and
leaves the state unchanged; None and mappings are stored. -/
theorem C7_configuration_validation {Net : Type} (n : NetworkOperation Net) :
    (∀ m : PyVal, m ≠ PyVal.str "sequential" → m ≠ PyVal.str "parallel" →
      n.set_execution_method m
        = (n, some (ConfigError.invalidMethod m ["parallel", "sequential"]))) ∧
    (n.set_execution_method (PyVal.str "sequential")
        = ({ n with _execution_method := "sequential" }, Option.none)) ∧
    (n.set_execution_method (PyVal.str "parallel")
        = ({ n with _execution_method := "parallel" }, Option.none)) ∧
    (∀ v : PyVal, n.set_overwrites_collector (CollectorArg.other v)
        = (n, some (ConfigError.collectorNotMutableMapping (CollectorArg.other v)))) ∧
    (n.set_overwrites_collector CollectorArg.pynone
        = ({ n with _overwrites_collector := Option.none }, Option.none)) ∧
    (∀ d, n.set_overwrites_collector (CollectorArg.mapping d)
        = ({ n with _overwrites_collector := some d }, Option.none)) := by
  refine ⟨?_, rfl, rfl, fun v => rfl, rfl, fun d => rfl⟩
  intro m h1 h2
  cases m with
  | str s =>
    have hs1 : s ≠ "sequential" := fun hh => h1 (by rw [hh])
    have hs2 : s ≠ "parallel" := fun hh => h2 (by rw [hh])
    unfold NetworkOperation.set_execution_method
    have hc : (["parallel", "sequential"].contains s) = false := by simp [hs1, hs2]
    simp only [hc]
    rfl
  | none => rfl
  | bool b => rfl
  | int i => rfl

/-- Witness for C7: on a concrete network operation, the invalid method
"bogus" and the integer collector 5 are rejected with errors naming
them, leaving the state unchanged; a valid method is stored. -/
theorem C7_witness :
    netOp0.set_execution_method (PyVal.str "bogus")
      = (netOp0, some (ConfigError.invalidMethod (PyVal.str "bogus")
          ["parallel", "sequential"])) ∧
    netOp0.set_overwrites_collector (CollectorArg.other (PyVal.int 5))
      = (netOp0, some (ConfigError.collectorNotMutableMapping
          (CollectorArg.other (PyVal.int 5)))) ∧
    netOp0.set_execution_method (PyVal.str "parallel")
      = ({ netOp0 with _execution_method := "parallel" }, Option.none) := by
  have h := C7_configuration_validation netOp0
  exact ⟨h.1 (PyVal.str "bogus") (by decide) (by decide), h.2.2.2.1 (PyVal.int 5), h.2.2.1⟩

end Graphkit
